import Mathlib

/-!
# dingo-libexpr: `src/expr/operand.h`

A shallow embedding of the `Operand` value type, of `Tuple`, of the two
hash specialisations and of the `any_optional_data_adaptor` bridge, with the
properties of its specification stated and proved (or refuted) over it.

Conventions of the embedding.

* `int32_t` / `int64_t` payloads are integers; no operation of this header
  does arithmetic on them, they are only stored, copied and compared.
* `float` / `double` payloads are IEEE-754 bit patterns (binary32, binary64).
  `==` on them is the IEEE comparison: a NaN is equal to nothing, `+0` and `-0`
  are equal, every other pair is equal exactly when the bits are.
* `std::shared_ptr<std::vector<E>>` is its stored pointer, an address of the
  free store (`Heap`); address `0` is the null pointer. `==` and `std::hash` of
  a shared pointer look at the stored pointer only, as the C++ standard says.
  Reference counts are not modelled: no object is released while the
  operations below run, so every vector made by `make_shared` stays alive.
* `std::variant` and `std::any` follow the C++ standard: `std::get` on the
  wrong alternative throws `std::bad_variant_access` (the TypeMismatch
  condition), `std::any_cast` on the wrong contained type throws
  `std::bad_any_cast`; dereferencing a null or dangling pointer is undefined
  behaviour, kept apart as its own failure.
* `size_t` is 64 bits wide: results of `std::hash` are reduced modulo `2^64`.
-/

/-- The raw string type `std::string`. -/
abbrev std_string := String

namespace dingodb.expr

/-! ## Scalars -/

/-- Width of `size_t`: `2^64`. -/
def SIZE_T_RANGE : Nat := 18446744073709551616

/-- Conversion of a mathematical result to `size_t` (unsigned wrap-around). -/
def size_t (n : Nat) : Nat := n % SIZE_T_RANGE

/-- An IEEE-754 binary32 value, by its bit pattern. -/
structure float where
  bits : Fin 4294967296
deriving DecidableEq

/-- An IEEE-754 binary64 value, by its bit pattern. -/
structure double where
  bits : Fin 18446744073709551616
deriving DecidableEq

/-- NaN of binary32: exponent all ones, fraction not zero. -/
def float.isNaN (x : float) : Bool :=
  (x.bits.val / 8388608) % 256 == 255 && x.bits.val % 8388608 != 0

/-- The two zeros of binary32: everything but the sign bit is zero. -/
def float.isZero (x : float) : Bool :=
  x.bits.val % 2147483648 == 0

/-- The built-in `==` on `float`. -/
def float.eq (x y : float) : Bool :=
  !x.isNaN && !y.isNaN && (x.bits == y.bits || (x.isZero && y.isZero))

/-- The built-in `!=` on `float`. -/
def float.ne (x y : float) : Bool :=
  x.isNaN || y.isNaN || !(x.bits == y.bits || (x.isZero && y.isZero))

/-- NaN of binary64: exponent all ones, fraction not zero. -/
def double.isNaN (x : double) : Bool :=
  (x.bits.val / 4503599627370496) % 2048 == 2047 && x.bits.val % 4503599627370496 != 0

/-- The two zeros of binary64. -/
def double.isZero (x : double) : Bool :=
  x.bits.val % 9223372036854775808 == 0

/-- The built-in `==` on `double`. -/
def double.eq (x y : double) : Bool :=
  !x.isNaN && !y.isNaN && (x.bits == y.bits || (x.isZero && y.isZero))

/-- The built-in `!=` on `double`. -/
def double.ne (x y : double) : Bool :=
  x.isNaN || y.isNaN || !(x.bits == y.bits || (x.isZero && y.isZero))

/-- Modelled from the spec: the class `String` of `expr/expr_string.h`, which
is not part of the sources at hand. The spec describes it as an owned textual
value with value semantics, built from a raw string and exposing the
underlying raw string. -/
structure String where
  m_str : std_string
deriving DecidableEq

/-- Modelled from the spec: the accessor of `String`; `*s.GetPtr()` is the
underlying raw string. -/
def String.GetPtr (s : String) : std_string := s.m_str

/-- Modelled from the spec: `==` of `String`, value equality of the text. -/
def String.eq (s t : String) : Bool := s.m_str == t.m_str

/-- Modelled from the spec: `!=` of `String`. -/
def String.ne (s t : String) : Bool := !(s.m_str == t.m_str)

/-! ## Shared arrays and the free store -/

/-- The six element types of the array alternatives. -/
inductive Elem
  | int32_t | int64_t | bool | float | double | string
deriving DecidableEq

/-- The C++ type of one element. -/
@[reducible] def Elem.type : Elem → Type
  | .int32_t => Int
  | .int64_t => Int
  | .bool => Bool
  | .float => dingodb.expr.float
  | .double => dingodb.expr.double
  | .string => std_string

/-- A `std::shared_ptr<std::vector<E>>`: its stored pointer. -/
structure shared_ptr where
  get : Nat
deriving DecidableEq

/-- Models `==` of two shared pointers: `a.get() == b.get()`. -/
def shared_ptr.eq (a b : shared_ptr) : Bool := a.get == b.get

/-- Models `!=` of two shared pointers: `!(a == b)`. -/
def shared_ptr.ne (a b : shared_ptr) : Bool := !(a.get == b.get)

/-- One `std::vector<E>` living in the free store. -/
structure vector_object where
  E : Elem
  elements : List E.type

/-- The free store: the object at address `k + 1` is `objects[k]`. -/
structure Heap where
  objects : List vector_object

/-- Models `std::make_shared<std::vector<E>>(origin)`: a new vector, copy of
`origin`, at an address no live object has. -/
def Heap.make_shared (heap : Heap) (e : Elem) (origin : List e.type) : shared_ptr × Heap :=
  (⟨heap.objects.length + 1⟩, ⟨heap.objects ++ [⟨e, origin⟩]⟩)

/-- The vector `*p` for a `std::shared_ptr<std::vector<E>>`; `none` where the
dereference is undefined (null pointer, or no such vector in the store). -/
def Heap.deref (heap : Heap) (e : Elem) (p : shared_ptr) : Option (List e.type) :=
  match p.get with
  | 0 => none
  | a + 1 =>
    match heap.objects.get? a with
    | none => none
    | some obj => if h : obj.E = e then some (h ▸ obj.elements) else none

/-- Assignment `*p = xs` through a `std::shared_ptr<std::vector<E>>`: the
vector at that address gets new contents; `none` where the dereference is
undefined. -/
def Heap.assign (heap : Heap) (e : Elem) (p : shared_ptr) (xs : List e.type) : Option Heap :=
  match heap.deref e p with
  | none => none
  | some _ => some ⟨heap.objects.set (p.get - 1) ⟨e, xs⟩⟩

/-! ## The variant `m_data` and `Operand` -/

/-- The ways an operation of this header can fail. -/
inductive Failure
  /-- Models `std::bad_variant_access`, the TypeMismatch condition. -/
  | TypeMismatch
  /-- Models `std::bad_any_cast`. -/
  | bad_any_cast
  /-- undefined behaviour: dereference of a pointer to no object. -/
  | undefined
deriving DecidableEq

/-- The thirteen alternative types of `m_data`, in declaration order. -/
inductive Alt
  | monostate | int32_t | int64_t | bool | float | double | String
  | shared_ptr_vector (e : Elem)
deriving DecidableEq

/-- The C++ type of an alternative. -/
@[reducible] def Alt.type : Alt → Type
  | .monostate => Unit
  | .int32_t => Int
  | .int64_t => Int
  | .bool => Bool
  | .float => dingodb.expr.float
  | .double => dingodb.expr.double
  | .String => dingodb.expr.String
  | .shared_ptr_vector _ => shared_ptr

/-- Position of an element type among the six array alternatives. -/
def Elem.position : Elem → Nat
  | .int32_t => 0
  | .int64_t => 1
  | .bool => 2
  | .float => 3
  | .double => 4
  | .string => 5

/-- Zero-based position of an alternative in the variant's type list. -/
def Alt.index : Alt → Nat
  | .monostate => 0
  | .int32_t => 1
  | .int64_t => 2
  | .bool => 3
  | .float => 4
  | .double => 5
  | .String => 6
  | .shared_ptr_vector e => 7 + e.position

/-- The `std::variant<std::monostate, int32_t, ..., std::shared_ptr<std::vector<std::string>>>`
held by an Operand: exactly one alternative with its payload. -/
inductive variant
  | monostate
  | int32_t (v : Int)
  | int64_t (v : Int)
  | bool (v : Bool)
  | float (v : float)
  | double (v : double)
  | String (v : String)
  | shared_ptr_vector (e : Elem) (p : shared_ptr)
deriving DecidableEq

/-- The active alternative. -/
def variant.alt : variant → Alt
  | .monostate => .monostate
  | .int32_t _ => .int32_t
  | .int64_t _ => .int64_t
  | .bool _ => .bool
  | .float _ => .float
  | .double _ => .double
  | .String _ => .String
  | .shared_ptr_vector e _ => .shared_ptr_vector e

/-- Models `v.index()`. -/
def variant.index (v : variant) : Nat := v.alt.index

/-- The converting constructor of the variant for a value whose type is one
of the alternatives: that alternative is selected (exact match). -/
def variant.ctor : (T : Alt) → T.type → variant
  | .monostate, _ => .monostate
  | .int32_t, v => .int32_t v
  | .int64_t, v => .int64_t v
  | .bool, v => .bool v
  | .float, v => .float v
  | .double, v => .double v
  | .String, v => .String v
  | .shared_ptr_vector e, p => .shared_ptr_vector e p

/-- Models `std::holds_alternative<T>(v)`. -/
def variant.holds_alternative (T : Alt) (v : variant) : Bool := v.index == T.index

/-- Models `std::get<T>(v)`: the payload when `T` is active, else `std::bad_variant_access`. -/
def variant.get : (T : Alt) → variant → Except Failure T.type
  | .monostate, .monostate => .ok ()
  | .int32_t, .int32_t v => .ok v
  | .int64_t, .int64_t v => .ok v
  | .bool, .bool v => .ok v
  | .float, .float v => .ok v
  | .double, .double v => .ok v
  | .String, .String v => .ok v
  | .shared_ptr_vector e, .shared_ptr_vector e1 p =>
    if e1 = e then .ok p else .error .TypeMismatch
  | _, _ => .error .TypeMismatch

/-- Models `operator==` of `std::variant`: false when the indices differ, else `==`
of the two payloads of the common alternative. -/
def variant.eq (v w : variant) : Bool :=
  if v.index != w.index then false
  else
    match v, w with
    | .monostate, .monostate => true
    | .int32_t x, .int32_t y => x == y
    | .int64_t x, .int64_t y => x == y
    | .bool x, .bool y => x == y
    | .float x, .float y => float.eq x y
    | .double x, .double y => double.eq x y
    | .String x, .String y => String.eq x y
    | .shared_ptr_vector _ p, .shared_ptr_vector _ q => shared_ptr.eq p q
    | _, _ => false

/-- Models `operator!=` of `std::variant`: true when the indices differ, else `!=`
of the two payloads of the common alternative. -/
def variant.ne (v w : variant) : Bool :=
  if v.index != w.index then true
  else
    match v, w with
    | .monostate, .monostate => false
    | .int32_t x, .int32_t y => x != y
    | .int64_t x, .int64_t y => x != y
    | .bool x, .bool y => x != y
    | .float x, .float y => float.ne x y
    | .double x, .double y => double.ne x y
    | .String x, .String y => String.ne x y
    | .shared_ptr_vector _ p, .shared_ptr_vector _ q => shared_ptr.ne p q
    | _, _ => true

/-- The class `Operand`: its one data member. -/
structure Operand where
  m_data : variant
deriving DecidableEq

/-- Models `Operand(T v) : m_data(v)` for `T` an alternative type. -/
def Operand.ctor (T : Alt) (v : T.type) : Operand := ⟨variant.ctor T v⟩

/-- Models `Operand(std::nullptr_t)`: `m_data` is default-initialised, which selects
the first alternative, `std::monostate`. -/
def Operand.of_nullptr : Operand := ⟨.monostate⟩

/-- Models `Operand() = default`. -/
def Operand.default : Operand := ⟨.monostate⟩

/-- The implicit copy constructor of `Operand`: `m_data` is copied, and the
copy of a shared pointer stores the same pointer. -/
def Operand.copy (a : Operand) : Operand := ⟨a.m_data⟩

/-- Models `bool operator==(const Operand &v) const`. -/
def Operand.eq (a v : Operand) : Bool := variant.eq a.m_data v.m_data

/-- Models `bool operator==(std::nullptr_t) const`. -/
def Operand.eq_nullptr (a : Operand) : Bool := variant.holds_alternative .monostate a.m_data

/-- Models `bool operator!=(const Operand &v) const`. -/
def Operand.ne (a v : Operand) : Bool := variant.ne a.m_data v.m_data

/-- Models `bool operator!=(std::nullptr_t) const`. -/
def Operand.ne_nullptr (a : Operand) : Bool := !variant.holds_alternative .monostate a.m_data

/-- Models `template <typename T> T GetValue() const`. -/
def Operand.GetValue (T : Alt) (a : Operand) : Except Failure T.type := variant.get T a.m_data

/-- Models `using Tuple = std::vector<Operand>`. -/
abbrev Tuple := List Operand

/-! ## The conversion adaptor `any_optional_data_adaptor` -/

/-- The twelve types `T` the adaptor is instantiated with: the five scalars,
the raw string type `std::string`, and `std::vector<E>` for the six `E`. -/
inductive Ty
  | int32_t | int64_t | bool | float | double | string
  | vector (e : Elem)
deriving DecidableEq

/-- The C++ type named by `T`. -/
@[reducible] def Ty.type : Ty → Type
  | .int32_t => Int
  | .int64_t => Int
  | .bool => Bool
  | .float => dingodb.expr.float
  | .double => dingodb.expr.double
  | .string => std_string
  | .vector e => List e.type

/-- The object contained in a `std::any` that has a value. -/
inductive any_object
  | int32_t (v : Int)
  | int64_t (v : Int)
  | bool (v : Bool)
  | float (v : float)
  | double (v : double)
  | string (v : std_string)
  | vector (e : Elem) (v : List e.type)

/-- A `std::any`, the external optional value: `none` when it has no value. -/
abbrev std_any := Option any_object

/-- Models `v.has_value()`. -/
def has_value (v : std_any) : Bool := v.isSome

/-- Models `std::make_any<T>(x)`. -/
def make_any : (T : Ty) → T.type → std_any
  | .int32_t, x => some (.int32_t x)
  | .int64_t, x => some (.int64_t x)
  | .bool, x => some (.bool x)
  | .float, x => some (.float x)
  | .double, x => some (.double x)
  | .string, x => some (.string x)
  | .vector e, x => some (.vector e x)

/-- Models `std::any_cast<const T &>(v)`: the contained object when its type is `T`,
else `std::bad_any_cast`. -/
def any_cast : (T : Ty) → std_any → Except Failure T.type
  | .int32_t, some (.int32_t x) => .ok x
  | .int64_t, some (.int64_t x) => .ok x
  | .bool, some (.bool x) => .ok x
  | .float, some (.float x) => .ok x
  | .double, some (.double x) => .ok x
  | .string, some (.string x) => .ok x
  | .vector e, some (.vector e1 x) =>
    if h : e1 = e then .ok (h ▸ x) else .error .bad_any_cast
  | _, _ => .error .bad_any_cast

/-- Models `template <typename T> Operand ToOperand(const std::any &v)`. The free
store is threaded through because the array branch allocates. For
`T = std::string` the constructor call `Operand(origin_value)` selects the
`String` alternative, built from the raw string. -/
def ToOperand (heap : Heap) : (T : Ty) → std_any → Except Failure (Operand × Heap)
  | T, v =>
    if !has_value v then .ok (Operand.of_nullptr, heap)
    else
      match T, any_cast T v with
      | _, .error f => .error f
      | .vector e, .ok origin_value =>
        let made := heap.make_shared e origin_value
        .ok (Operand.ctor (.shared_ptr_vector e) made.1, made.2)
      | .int32_t, .ok origin_value => .ok (Operand.ctor .int32_t origin_value, heap)
      | .int64_t, .ok origin_value => .ok (Operand.ctor .int64_t origin_value, heap)
      | .bool, .ok origin_value => .ok (Operand.ctor .bool origin_value, heap)
      | .float, .ok origin_value => .ok (Operand.ctor .float origin_value, heap)
      | .double, .ok origin_value => .ok (Operand.ctor .double origin_value, heap)
      | .string, .ok origin_value => .ok (Operand.ctor .String ⟨origin_value⟩, heap)

/-- Models `template <typename T> std::any FromOperand(const Operand &v)`: the three
`if constexpr` branches, the last one instantiated at the five scalars. -/
def FromOperand (heap : Heap) : (T : Ty) → Operand → Except Failure std_any
  | .vector e, v =>
    if v.ne_nullptr then
      match v.GetValue (.shared_ptr_vector e) with
      | .error f => .error f
      | .ok p =>
        match heap.deref e p with
        | none => .error .undefined
        | some pointee => .ok (make_any (.vector e) pointee)
    else .ok none
  | .string, v =>
    if v.ne_nullptr then
      match v.GetValue .String with
      | .error f => .error f
      | .ok s => .ok (make_any .string s.GetPtr)
    else .ok none
  | .int32_t, v =>
    if v.ne_nullptr then
      match v.GetValue .int32_t with
      | .error f => .error f
      | .ok x => .ok (make_any .int32_t x)
    else .ok none
  | .int64_t, v =>
    if v.ne_nullptr then
      match v.GetValue .int64_t with
      | .error f => .error f
      | .ok x => .ok (make_any .int64_t x)
    else .ok none
  | .bool, v =>
    if v.ne_nullptr then
      match v.GetValue .bool with
      | .error f => .error f
      | .ok x => .ok (make_any .bool x)
    else .ok none
  | .float, v =>
    if v.ne_nullptr then
      match v.GetValue .float with
      | .error f => .error f
      | .ok x => .ok (make_any .float x)
    else .ok none
  | .double, v =>
    if v.ne_nullptr then
      match v.GetValue .double with
      | .error f => .error f
      | .ok x => .ok (make_any .double x)
    else .ok none

/-! ## Hashing -/

/-- The hash functions of the C++ standard library that `std::hash` of the
variant is made of. The library leaves their values open, so they are
parameters; it does require a hash to agree on arguments that compare equal,
which matters for `float` and `double` (`+0 == -0`). `std::hash` of a shared
pointer is the hash of its stored pointer. -/
structure std_hash where
  hash_monostate : Nat
  hash_int32_t : Int → Nat
  hash_int64_t : Int → Nat
  hash_bool : Bool → Nat
  hash_float : float → Nat
  hash_double : double → Nat
  hash_String : String → Nat
  hash_pointer : Elem → Nat → Nat
  /-- how `std::hash` of a variant merges the index with the payload's hash -/
  combine : Nat → Nat → Nat
  hash_float_eq : ∀ x y, float.eq x y = true → hash_float x = hash_float y
  hash_double_eq : ∀ x y, double.eq x y = true → hash_double x = hash_double y

/-- Models `std::hash` of the active payload. -/
def std_hash.hash_payload (H : std_hash) : variant → Nat
  | .monostate => H.hash_monostate
  | .int32_t x => H.hash_int32_t x
  | .int64_t x => H.hash_int64_t x
  | .bool x => H.hash_bool x
  | .float x => H.hash_float x
  | .double x => H.hash_double x
  | .String x => H.hash_String x
  | .shared_ptr_vector e p => H.hash_pointer e p.get

/-- Models `std::hash<std::variant<...>>`: the index merged with the hash of the
active payload, as a `size_t`. -/
def std_hash.hash_variant (H : std_hash) (v : variant) : Nat :=
  size_t (H.combine v.index (H.hash_payload v))

/-- Models `std::hash<::dingodb::expr::Operand>::operator()`. -/
def hash_Operand (H : std_hash) (val : Operand) : Nat := H.hash_variant val.m_data

/-- The loop of `std::hash<::dingodb::expr::Tuple>::operator()`, from the
current value of `h` over the elements still to visit. -/
def hash_Tuple_loop (H : std_hash) : Nat → Tuple → Nat
  | h, [] => h
  | h, v :: rest =>
    let h1 := size_t (h * 31)
    let h2 := size_t (h1 + hash_Operand H v)
    hash_Tuple_loop H h2 rest

/-- Models `std::hash<::dingodb::expr::Tuple>::operator()`. -/
def hash_Tuple (H : std_hash) (val : Tuple) : Nat := hash_Tuple_loop H 0 val

/-- Models `operator==` of `std::vector<Operand>`: same size and equal elements,
position by position, under `Operand::operator==`. -/
def Tuple.eq : Tuple → Tuple → Bool
  | [], [] => true
  | a :: s, b :: t => Operand.eq a b && Tuple.eq s t
  | _, _ => false

/-- A standard library to evaluate hashes with: integers, `bool` and pointers
hash to their own value as a `size_t`, `std::monostate` to the constant
`-7777`, both zeros of a floating type to `0` and any other floating value to
its bits, a `String` to the length of its text, and a variant adds its index
to the payload's hash. -/
def reference_hash : std_hash where
  hash_monostate := 18446744073709543839
  hash_int32_t x := (x % 18446744073709551616).toNat
  hash_int64_t x := (x % 18446744073709551616).toNat
  hash_bool x := x.toNat
  hash_float x := if x.isZero then 0 else x.bits.val
  hash_double x := if x.isZero then 0 else x.bits.val
  hash_String x := x.m_str.length
  hash_pointer _ a := a
  combine i h := i + h
  hash_float_eq := by
    intro x y h
    simp only [float.eq, Bool.and_eq_true, Bool.or_eq_true, beq_iff_eq] at h
    rcases h.2 with hb | hz
    · have : x = y := by cases x; cases y; simpa using hb
      rw [this]
    · simp [hz.1, hz.2]
  hash_double_eq := by
    intro x y h
    simp only [double.eq, Bool.and_eq_true, Bool.or_eq_true, beq_iff_eq] at h
    rcases h.2 with hb | hz
    · have : x = y := by cases x; cases y; simpa using hb
      rw [this]
    · simp [hz.1, hz.2]

/-! ## Notions of the specification -/

/-- The alternative of `m_data` that corresponds to the adaptor type `T`: the
array alternative for an array, `String` for the raw string type, the scalar
alternative otherwise. -/
def Ty.alt : Ty → Alt
  | .int32_t => .int32_t
  | .int64_t => .int64_t
  | .bool => .bool
  | .float => .float
  | .double => .double
  | .string => .String
  | .vector e => .shared_ptr_vector e

/-- The payload is a NaN of the `float` or `double` alternative. -/
def variant.is_NaN : variant → Bool
  | .float x => x.isNaN
  | .double x => x.isNaN
  | _ => false

/-- Both payloads are zeros (of either sign) of the same floating alternative. -/
def variant.both_zero : variant → variant → Bool
  | .float x, .float y => x.isZero && y.isZero
  | .double x, .double y => x.isZero && y.isZero
  | _, _ => false

/-- The Tuple hash in the words of the specification: a left fold of
`acc * 31 + Hash(element)` from `0`, in `size_t` arithmetic. -/
def spec_hash_Tuple (H : std_hash) (t : Tuple) : Nat :=
  t.foldl (fun acc element => (acc * 31 + hash_Operand H element) % 2 ^ 64) 0

/-- The Operand holds, in the alternative corresponding to `T`, the value `x`
of type `T`: the scalar itself, a `String` whose raw string is `x`, or a
handle to an array of the free store with exactly the elements of `x`. -/
def Operand.holds (heap : Heap) : (T : Ty) → T.type → Operand → Prop
  | .int32_t, x, op => op.m_data = .int32_t x
  | .int64_t, x, op => op.m_data = .int64_t x
  | .bool, x, op => op.m_data = .bool x
  | .float, x, op => op.m_data = .float x
  | .double, x, op => op.m_data = .double x
  | .string, x, op => ∃ s : String, op.m_data = .String s ∧ s.GetPtr = x
  | .vector e, x, op => ∃ p, op.m_data = .shared_ptr_vector e p ∧ heap.deref e p = some x

/-- The composition `ToOperand<T>(FromOperand<T>(v))`. -/
def ToOperand_of_FromOperand (heap : Heap) (T : Ty) (v : Operand) :
    Except Failure (Operand × Heap) :=
  match FromOperand heap T v with
  | .error f => .error f
  | .ok external => ToOperand heap T external

/-- Two payloads of one alternative compare equal under the `==` of their
type: the same value for integers, `bool` and `String`, IEEE equality for
`float` and `double`, the same stored pointer for a shared array handle. -/
def variant.same_payload : variant → variant → Bool
  | .monostate, .monostate => true
  | .int32_t x, .int32_t y => x == y
  | .int64_t x, .int64_t y => x == y
  | .bool x, .bool y => x == y
  | .float x, .float y => float.eq x y
  | .double x, .double y => double.eq x y
  | .String x, .String y => String.eq x y
  | .shared_ptr_vector _ p, .shared_ptr_vector _ q => p.get == q.get
  | _, _ => false

/-! ## Values used in the examples -/

/-- The free store after the first of two `int32_t` vectors `[1, 2, 3]` was
assigned `[4, 5]`. -/
def assigned_heap : Heap := ⟨[⟨.int32_t, [4, 5]⟩, ⟨.int32_t, [1, 2, 3]⟩]⟩

/-- The least `int64_t`, `-2^63`. -/
def INT64_MIN : Int := -9223372036854775808

/-- The empty free store. -/
def empty_heap : Heap := ⟨[]⟩

/-- The free store after two vectors `[1, 2, 3]` of `int32_t` were made. -/
def two_arrays_heap : Heap := ⟨[⟨.int32_t, [1, 2, 3]⟩, ⟨.int32_t, [1, 2, 3]⟩]⟩

/-- The free store after one vector `[1, 2, 3]` of `int32_t` was made. -/
def one_array_heap : Heap := ⟨[⟨.int32_t, [1, 2, 3]⟩]⟩

/-- The Operand holding the handle of the first vector made. -/
def first_array : Operand := Operand.ctor (.shared_ptr_vector .int32_t) ⟨1⟩

/-- The Operand holding the handle of the second vector made. -/
def second_array : Operand := Operand.ctor (.shared_ptr_vector .int32_t) ⟨2⟩

/-- A quiet NaN of binary32. -/
def float_NaN : float := ⟨2143289344⟩

/-- The binary32 `+0.0`. -/
def float_pos_zero : float := ⟨0⟩

/-- The binary32 `-0.0`. -/
def float_neg_zero : float := ⟨2147483648⟩

/-- A null `std::shared_ptr`. -/
def null_shared_ptr : shared_ptr := ⟨0⟩

end dingodb.expr

namespace dingodb.expr

/-! ## Lemmas on the embedding -/

theorem Heap.deref_make_shared (heap : Heap) (e : Elem) (origin : List e.type) :
    (heap.make_shared e origin).2.deref e (heap.make_shared e origin).1 = some origin := by
  simp [Heap.make_shared, Heap.deref, List.get?_eq_getElem?]

theorem Elem.position_injective {e1 e2 : Elem} (h : e1.position = e2.position) : e1 = e2 := by
  cases e1 <;> cases e2 <;> simp [Elem.position] at h ⊢

theorem Alt.index_injective {A B : Alt} (h : A.index = B.index) : A = B := by
  cases A <;> cases B <;> simp [Alt.index] at h ⊢
  all_goals first | omega | exact Elem.position_injective h

theorem variant.index_eq_iff (v w : variant) : v.index = w.index ↔ v.alt = w.alt :=
  ⟨fun h => Alt.index_injective h, fun h => by simp [variant.index, h]⟩

end dingodb.expr

namespace dingodb.expr

theorem String.ext_m_str {s t : String} (h : s.m_str = t.m_str) : s = t := by
  cases s; cases t; simp_all

theorem hash_Operand_congr (H : std_hash) (a b : Operand) (h : a.eq b = true) :
    hash_Operand H a = hash_Operand H b := by
  obtain ⟨va⟩ := a
  obtain ⟨vb⟩ := b
  cases va <;> cases vb <;>
    simp [Operand.eq, variant.eq, variant.index, variant.alt, Alt.index, String.eq,
      shared_ptr.eq] at h <;>
    simp [hash_Operand, std_hash.hash_variant, std_hash.hash_payload, variant.index,
      variant.alt, Alt.index]
  all_goals first
    | (subst h; rfl)
    | rw [H.hash_float_eq _ _ h]
    | rw [H.hash_double_eq _ _ h]
    | rw [String.ext_m_str h]
    | (obtain ⟨he, hp⟩ := h; rw [Elem.position_injective he, hp])

/-! ## The round trip through the adaptor -/

/-- C1: for each of the twelve supported types `T`, from any state of the free
store, `ToOperand<T>` of the absent value succeeds and `FromOperand<T>` of its
result is the absent value; and `ToOperand<T>` of a present value `x` of type
`T` succeeds and `FromOperand<T>` of its result succeeds with a present value
of type `T` whose content is `x` (the same scalar, the same text, the same
sequence of elements). -/
theorem FromOperand_ToOperand_roundtrip (heap : Heap) (T : Ty) :
    (∃ op heap1, ToOperand heap T none = .ok (op, heap1) ∧
      FromOperand heap1 T op = .ok none) ∧
    (∀ x : T.type, ∃ op heap1, ToOperand heap T (make_any T x) = .ok (op, heap1) ∧
      FromOperand heap1 T op = .ok (make_any T x)) := by
  constructor
  · refine ⟨Operand.of_nullptr, heap, ?_, ?_⟩
    · simp [ToOperand, has_value]
    · cases T <;>
        simp [FromOperand, Operand.of_nullptr, Operand.ne_nullptr, variant.holds_alternative,
          variant.index, variant.alt]
  · intro x
    cases T
    case vector e =>
      refine ⟨Operand.ctor (.shared_ptr_vector e) (heap.make_shared e x).1,
        (heap.make_shared e x).2, ?_, ?_⟩
      · simp [ToOperand, has_value, make_any, any_cast]
      · simp [make_any, FromOperand, Operand.ne_nullptr, variant.holds_alternative,
          variant.index, variant.alt, Alt.index, Operand.ctor, variant.ctor, Operand.GetValue,
          variant.get, Heap.deref_make_shared]
    all_goals
      simp [ToOperand, has_value, make_any, any_cast, FromOperand, Operand.ne_nullptr,
        variant.holds_alternative, variant.index, variant.alt, Alt.index, Operand.ctor,
        variant.ctor, Operand.GetValue, variant.get, String.GetPtr]

/-- The round trip evaluated: `[1, 2, 3]` as `std::vector<int32_t>` from the
empty free store, and the absent value. -/
theorem roundtrip_int32_array_example :
    ToOperand empty_heap (.vector .int32_t) (make_any (.vector .int32_t) [1, 2, 3]) =
      .ok (first_array, one_array_heap) ∧
    FromOperand one_array_heap (.vector .int32_t) first_array =
      .ok (make_any (.vector .int32_t) [1, 2, 3]) ∧
    ToOperand empty_heap (.vector .int32_t) none = .ok (Operand.of_nullptr, empty_heap) ∧
    FromOperand empty_heap (.vector .int32_t) Operand.of_nullptr = .ok none :=
  ⟨rfl, rfl, rfl, rfl⟩

/-! ## Hash of an Operand against its equality -/

/-- C2: two Operands that compare equal under `Operand::operator==` have the
same `std::hash<Operand>`, whatever hash functions the standard library
provides (they agree on equal floating-point arguments, as the library
requires of every hash). -/
theorem hash_Operand_eq_of_eq (H : std_hash) (a b : Operand) (h : a.eq b = true) :
    hash_Operand H a = hash_Operand H b :=
  hash_Operand_congr H a b h

/-- Witness of C2: `+0.0f` and `-0.0f` compare equal and hash alike. -/
theorem hash_Operand_eq_of_eq_witness :
    (Operand.ctor .float float_pos_zero).eq (Operand.ctor .float float_neg_zero) = true ∧
    hash_Operand reference_hash (Operand.ctor .float float_pos_zero) =
      hash_Operand reference_hash (Operand.ctor .float float_neg_zero) :=
  ⟨by decide, hash_Operand_eq_of_eq reference_hash _ _ (by decide)⟩

end dingodb.expr

namespace dingodb.expr

/-! ## Equality of Operands -/

theorem float_eq_iff (x y : float) :
    float.eq x y = true ↔
      x.isNaN = false ∧ y.isNaN = false ∧ (x = y ∨ (x.isZero = true ∧ y.isZero = true)) := by
  obtain ⟨bx⟩ := x
  obtain ⟨bq⟩ := y
  simp [float.eq, and_assoc]

theorem double_eq_iff (x y : double) :
    double.eq x y = true ↔
      x.isNaN = false ∧ y.isNaN = false ∧ (x = y ∨ (x.isZero = true ∧ y.isZero = true)) := by
  obtain ⟨bx⟩ := x
  obtain ⟨bq⟩ := y
  simp [double.eq, and_assoc]

theorem float_isNaN_of_isZero (x : float) (h : x.isZero = true) : x.isNaN = false := by
  obtain ⟨bx⟩ := x
  simp [float.isZero, float.isNaN] at h ⊢
  omega

theorem double_isNaN_of_isZero (x : double) (h : x.isZero = true) : x.isNaN = false := by
  obtain ⟨bx⟩ := x
  simp [double.isZero, double.isNaN] at h ⊢
  omega

theorem float_ne_eq_not_eq (x y : float) : float.ne x y = !float.eq x y := by
  simp [float.ne, float.eq]

theorem double_ne_eq_not_eq (x y : double) : double.ne x y = !double.eq x y := by
  simp [double.ne, double.eq]

theorem float_eq_symm (x y : float) (h : float.eq x y = true) : float.eq y x = true := by
  rw [float_eq_iff] at h ⊢
  obtain ⟨h1, h2, h3⟩ := h
  exact ⟨h2, h1, h3.elim (fun e => Or.inl e.symm) (fun z => Or.inr ⟨z.2, z.1⟩)⟩

theorem double_eq_symm (x y : double) (h : double.eq x y = true) : double.eq y x = true := by
  rw [double_eq_iff] at h ⊢
  obtain ⟨h1, h2, h3⟩ := h
  exact ⟨h2, h1, h3.elim (fun e => Or.inl e.symm) (fun z => Or.inr ⟨z.2, z.1⟩)⟩

theorem float_eq_trans (x y z : float) (h : float.eq x y = true) (k : float.eq y z = true) :
    float.eq x z = true := by
  rw [float_eq_iff] at h k ⊢
  obtain ⟨h1, _, h3⟩ := h
  obtain ⟨_, k2, k3⟩ := k
  refine ⟨h1, k2, ?_⟩
  rcases h3 with rfl | ⟨zx, zy⟩
  · exact k3
  · rcases k3 with rfl | ⟨_, zz⟩
    · exact Or.inr ⟨zx, zy⟩
    · exact Or.inr ⟨zx, zz⟩

theorem double_eq_trans (x y z : double) (h : double.eq x y = true) (k : double.eq y z = true) :
    double.eq x z = true := by
  rw [double_eq_iff] at h k ⊢
  obtain ⟨h1, _, h3⟩ := h
  obtain ⟨_, k2, k3⟩ := k
  refine ⟨h1, k2, ?_⟩
  rcases h3 with rfl | ⟨zx, zy⟩
  · exact k3
  · rcases k3 with rfl | ⟨_, zz⟩
    · exact Or.inr ⟨zx, zy⟩
    · exact Or.inr ⟨zx, zz⟩

theorem float_eq_self (x : float) (h : x.isNaN = false) : float.eq x x = true := by
  rw [float_eq_iff]
  exact ⟨h, h, Or.inl rfl⟩

theorem double_eq_self (x : double) (h : x.isNaN = false) : double.eq x x = true := by
  rw [double_eq_iff]
  exact ⟨h, h, Or.inl rfl⟩

theorem float_eq_iff_same_or_zero (x y : float) :
    float.eq x y = true ↔
      (x = y ∧ x.isNaN = false) ∨ (x.isZero = true ∧ y.isZero = true) := by
  rw [float_eq_iff]
  constructor
  · rintro ⟨h1, _, h3 | h3⟩
    · exact Or.inl ⟨h3, h1⟩
    · exact Or.inr h3
  · rintro (⟨rfl, h⟩ | ⟨zx, zy⟩)
    · exact ⟨h, h, Or.inl rfl⟩
    · exact ⟨float_isNaN_of_isZero x zx, float_isNaN_of_isZero y zy, Or.inr ⟨zx, zy⟩⟩

theorem double_eq_iff_same_or_zero (x y : double) :
    double.eq x y = true ↔
      (x = y ∧ x.isNaN = false) ∨ (x.isZero = true ∧ y.isZero = true) := by
  rw [double_eq_iff]
  constructor
  · rintro ⟨h1, _, h3 | h3⟩
    · exact Or.inl ⟨h3, h1⟩
    · exact Or.inr h3
  · rintro (⟨rfl, h⟩ | ⟨zx, zy⟩)
    · exact ⟨h, h, Or.inl rfl⟩
    · exact ⟨double_isNaN_of_isZero x zx, double_isNaN_of_isZero y zy, Or.inr ⟨zx, zy⟩⟩

theorem Elem.position_eq_iff (e1 e2 : Elem) : e1.position = e2.position ↔ e1 = e2 :=
  ⟨Elem.position_injective, fun h => by rw [h]⟩

theorem String.m_str_eq_iff (s t : String) : s.m_str = t.m_str ↔ s = t :=
  ⟨String.ext_m_str, fun h => by rw [h]⟩

theorem shared_ptr.get_eq_iff (p q : shared_ptr) : p.get = q.get ↔ p = q := by
  cases p; cases q; simp

/-- C3 as stated fails: two `int32_t` arrays `[1, 2, 3]` made one after the
other by `ToOperand` give Operands of the same alternative whose arrays are
element-wise equal, and `operator==` says they are not equal. -/
theorem separately_created_arrays_not_equal :
    ToOperand empty_heap (.vector .int32_t) (make_any (.vector .int32_t) [1, 2, 3]) =
      .ok (first_array, one_array_heap) ∧
    ToOperand one_array_heap (.vector .int32_t) (make_any (.vector .int32_t) [1, 2, 3]) =
      .ok (second_array, two_arrays_heap) ∧
    first_array.m_data.alt = second_array.m_data.alt ∧
    two_arrays_heap.deref .int32_t ⟨1⟩ = some [1, 2, 3] ∧
    two_arrays_heap.deref .int32_t ⟨2⟩ = some [1, 2, 3] ∧
    first_array.eq second_array = false :=
  ⟨rfl, rfl, rfl, rfl, rfl, rfl⟩

/-- C3, amended: `a == b` holds exactly when either `a` and `b` have the same
active alternative and the same payload, that payload not being a NaN, or
both hold zeros of the same floating alternative. The payload of an array
alternative is the shared handle: two array Operands are equal exactly when
they are of the same array alternative and hold the same handle. -/
theorem Operand_eq_iff :
    (∀ a b : Operand, a.eq b = true ↔
      (a = b ∧ a.m_data.is_NaN = false) ∨ variant.both_zero a.m_data b.m_data = true) ∧
    (∀ (e e1 : Elem) (p q : shared_ptr),
      (Operand.ctor (.shared_ptr_vector e) p).eq (Operand.ctor (.shared_ptr_vector e1) q) = true ↔
        e = e1 ∧ p.get = q.get) := by
  constructor
  · rintro ⟨va⟩ ⟨vb⟩
    cases va <;> cases vb <;>
      simp [Operand.eq, variant.eq, variant.index, variant.alt, Alt.index, String.eq,
        shared_ptr.eq, variant.is_NaN, variant.both_zero, float_eq_iff_same_or_zero,
        double_eq_iff_same_or_zero, Elem.position_eq_iff, String.m_str_eq_iff,
        shared_ptr.get_eq_iff]
  · intro e e1 p q
    simp [Operand.ctor, variant.ctor, Operand.eq, variant.eq, variant.index, variant.alt,
      Alt.index, shared_ptr.eq, Elem.position_eq_iff]

/-- C4: two Operands whose active alternatives differ are not equal under
`operator==` and are unequal under `operator!=`, whatever they hold. -/
theorem Operand_eq_false_of_alt_ne (a b : Operand) (h : a.m_data.alt ≠ b.m_data.alt) :
    a.eq b = false ∧ a.ne b = true := by
  have hi : a.m_data.index ≠ b.m_data.index := fun k => h (Alt.index_injective k)
  simp [Operand.eq, Operand.ne, variant.eq, variant.ne, hi]

/-- Witness of C4: `int32_t` 3 against `int64_t` 3. -/
theorem Operand_eq_false_of_alt_ne_witness :
    (Operand.ctor .int32_t 3).m_data.alt ≠ (Operand.ctor .int64_t 3).m_data.alt ∧
    (Operand.ctor .int32_t 3).eq (Operand.ctor .int64_t 3) = false ∧
    (Operand.ctor .int32_t 3).ne (Operand.ctor .int64_t 3) = true :=
  ⟨by decide, Operand_eq_false_of_alt_ne _ _ (by decide)⟩

/-- C5 as stated fails: an Operand holding a `float` NaN is not equal to
itself. -/
theorem NaN_Operand_not_reflexive :
    float_NaN.isNaN = true ∧
    (Operand.ctor .float float_NaN).eq (Operand.ctor .float float_NaN) = false :=
  ⟨by decide, by decide⟩

/-- C5, amended: `operator==` is symmetric and transitive on all Operands, and
`a == a` holds for every Operand whose payload is not a `float` or `double`
NaN. -/
theorem Operand_eq_equivalence (a b c : Operand) :
    (a.m_data.is_NaN = false → a.eq a = true) ∧
    (a.eq b = true → b.eq a = true) ∧
    (a.eq b = true → b.eq c = true → a.eq c = true) := by
  obtain ⟨va⟩ := a
  obtain ⟨vb⟩ := b
  obtain ⟨vc⟩ := c
  refine ⟨?_, ?_, ?_⟩
  · cases va <;>
      simp [Operand.eq, variant.eq, variant.index, variant.alt, Alt.index, String.eq,
        shared_ptr.eq, variant.is_NaN]
    · exact float_eq_self _
    · exact double_eq_self _
  · intro hab
    cases va <;> cases vb <;>
      simp [Operand.eq, variant.eq, variant.index, variant.alt, Alt.index, String.eq,
        shared_ptr.eq] at hab ⊢
    all_goals first
      | exact hab.symm
      | exact float_eq_symm _ _ hab
      | exact double_eq_symm _ _ hab
      | exact ⟨hab.1.symm, hab.2.symm⟩
  · intro hab hbc
    cases va <;> cases vb <;>
      simp [Operand.eq, variant.eq, variant.index, variant.alt, Alt.index, String.eq,
        shared_ptr.eq] at hab <;>
      cases vc <;>
      simp [Operand.eq, variant.eq, variant.index, variant.alt, Alt.index, String.eq,
        shared_ptr.eq] at hbc ⊢
    all_goals first
      | exact hab.trans hbc
      | exact float_eq_trans _ _ _ hab hbc
      | exact double_eq_trans _ _ _ hab hbc
      | exact ⟨hab.1.trans hbc.1, hab.2.trans hbc.2⟩

/-- Witness of C5, amended: at `+0.0f`, `-0.0f`, `+0.0f`. -/
theorem Operand_eq_equivalence_witness :
    (Operand.ctor .float float_pos_zero).eq (Operand.ctor .float float_pos_zero) = true ∧
    (Operand.ctor .float float_neg_zero).eq (Operand.ctor .float float_pos_zero) = true ∧
    (Operand.ctor .float float_pos_zero).eq (Operand.ctor .float float_pos_zero) = true :=
  ⟨(Operand_eq_equivalence (Operand.ctor .float float_pos_zero)
      (Operand.ctor .float float_neg_zero) (Operand.ctor .float float_pos_zero)).1 (by decide),
   (Operand_eq_equivalence (Operand.ctor .float float_pos_zero)
      (Operand.ctor .float float_neg_zero) (Operand.ctor .float float_pos_zero)).2.1 (by decide),
   (Operand_eq_equivalence (Operand.ctor .float float_pos_zero)
      (Operand.ctor .float float_neg_zero) (Operand.ctor .float float_pos_zero)).2.2
      (by decide) (by decide)⟩

/-! ## Typed extraction -/

/-- C6: `GetValue<T>` on an Operand whose active alternative is `T` returns the
payload the Operand holds; on an Operand whose active alternative is any
other one (the null alternative included, in either role) it fails with
TypeMismatch. -/
theorem GetValue_spec (op : Operand) (T : Alt) :
    (op.m_data.alt = T →
      ∃ x : T.type, op.m_data = variant.ctor T x ∧ op.GetValue T = .ok x) ∧
    (op.m_data.alt ≠ T → op.GetValue T = .error .TypeMismatch) := by
  obtain ⟨v⟩ := op
  constructor
  · intro h
    subst h
    cases v
    case monostate => exact ⟨(), rfl, rfl⟩
    all_goals exact ⟨_, rfl, by simp [Operand.GetValue, variant.get, variant.alt]⟩
  · intro h
    cases v <;> cases T <;>
      simp [Operand.GetValue, variant.get, variant.alt] at h ⊢
    exact h

/-- Witness of C6: an Operand holding a string, extracted as `int64_t` and as
`String`. -/
theorem GetValue_spec_witness :
    (Operand.ctor .String ⟨"abc"⟩).GetValue .int64_t = .error .TypeMismatch ∧
    ∃ x : String, (Operand.ctor .String ⟨"abc"⟩).m_data = variant.ctor .String x ∧
      (Operand.ctor .String ⟨"abc"⟩).GetValue .String = .ok x :=
  ⟨(GetValue_spec (Operand.ctor .String ⟨"abc"⟩) .int64_t).2 (by decide),
   (GetValue_spec (Operand.ctor .String ⟨"abc"⟩) .String).1 rfl⟩

/-! ## Failure of `FromOperand` -/

/-- C7 as stated fails: an Operand of the `int32_t` array alternative holding
a null handle is not null, its alternative is the one of
`T = std::vector<int32_t>`, and `FromOperand<T>` does not return: it
dereferences the null handle. -/
theorem FromOperand_null_handle_undefined :
    (Operand.ctor (.shared_ptr_vector .int32_t) null_shared_ptr).ne_nullptr = true ∧
    (Operand.ctor (.shared_ptr_vector .int32_t) null_shared_ptr).m_data.alt =
      (Ty.vector .int32_t).alt ∧
    FromOperand two_arrays_heap (.vector .int32_t)
      (Operand.ctor (.shared_ptr_vector .int32_t) null_shared_ptr) = .error .undefined :=
  ⟨rfl, rfl, rfl⟩

/-- C7, amended: `FromOperand<T>(op)` fails with TypeMismatch exactly when `op`
is not null and its active alternative is not the one corresponding to `T`;
on a null `op` it returns the absent value; on an `op` whose alternative
corresponds to `T` it returns a present value, provided the handle `op` holds,
if it holds one, points to an array of the free store. -/
theorem FromOperand_TypeMismatch_iff (heap : Heap) (T : Ty) (op : Operand) :
    (FromOperand heap T op = .error .TypeMismatch ↔
      op.m_data ≠ .monostate ∧ op.m_data.alt ≠ T.alt) ∧
    (op.m_data = .monostate → FromOperand heap T op = .ok none) ∧
    (op.m_data.alt = T.alt →
      (∀ e p, op.m_data = .shared_ptr_vector e p → (heap.deref e p).isSome = true) →
      ∃ obj, FromOperand heap T op = .ok (some obj)) := by
  obtain ⟨v⟩ := op
  refine ⟨?_, ?_, ?_⟩
  · cases T <;> cases v <;>
      simp [FromOperand, Operand.ne_nullptr, variant.holds_alternative, variant.index,
        variant.alt, Alt.index, Operand.GetValue, variant.get, Ty.alt, make_any]
    rename_i e e1 p
    by_cases hee : e1 = e
    · subst hee
      cases hd : heap.deref e1 p <;> simp [hd]
    · simp [hee]
  · intro h
    simp only at h
    subst h
    cases T <;>
      simp [FromOperand, Operand.ne_nullptr, variant.holds_alternative, variant.index,
        variant.alt, Alt.index]
  · intro h hp
    cases T <;> cases v <;>
      simp [FromOperand, Operand.ne_nullptr, variant.holds_alternative, variant.index,
        variant.alt, Alt.index, Operand.GetValue, variant.get, Ty.alt, make_any] at h hp ⊢
    rename_i e e1 p
    subst h
    obtain ⟨pointee, hd⟩ := Option.isSome_iff_exists.mp hp
    exact ⟨any_object.vector _ pointee, by simp [hd]⟩

/-- Witness of C7, amended: the second `int32_t` array of the free store read
back as `std::vector<int32_t>`, the null Operand read back, and an `int32_t`
Operand read as `std::vector<int32_t>`. -/
theorem FromOperand_TypeMismatch_iff_witness :
    (∃ obj, FromOperand two_arrays_heap (.vector .int32_t) second_array = .ok (some obj)) ∧
    FromOperand two_arrays_heap (.vector .int32_t) Operand.of_nullptr = .ok none ∧
    FromOperand two_arrays_heap (.vector .int32_t) (Operand.ctor .int32_t 5) =
      .error .TypeMismatch :=
  ⟨(FromOperand_TypeMismatch_iff two_arrays_heap (.vector .int32_t) second_array).2.2 rfl
      (by
        intro e p h
        simp only [second_array, Operand.ctor, variant.ctor, variant.shared_ptr_vector.injEq] at h
        obtain ⟨he, hp⟩ := h
        subst he hp
        rfl),
   (FromOperand_TypeMismatch_iff two_arrays_heap (.vector .int32_t) Operand.of_nullptr).2.1 rfl,
   (FromOperand_TypeMismatch_iff two_arrays_heap (.vector .int32_t)
      (Operand.ctor .int32_t 5)).1.mpr ⟨by decide, by decide⟩⟩

/-! ## Comparison with the null sentinel -/

/-- C8: `op == nullptr` is true exactly when the active alternative of `op` is
the null one, `op != nullptr` is its negation, `Operand() == nullptr` is true,
`Operand(5) == nullptr` is false and `Operand(5) != nullptr` is true. -/
theorem eq_nullptr_iff (op : Operand) :
    (op.eq_nullptr = true ↔ op.m_data = .monostate) ∧
    op.ne_nullptr = !op.eq_nullptr ∧
    Operand.default.eq_nullptr = true ∧
    (Operand.ctor .int32_t 5).eq_nullptr = false ∧
    (Operand.ctor .int32_t 5).ne_nullptr = true := by
  obtain ⟨v⟩ := op
  refine ⟨?_, rfl, rfl, rfl, rfl⟩
  cases v <;>
    simp [Operand.eq_nullptr, variant.holds_alternative, variant.index, variant.alt, Alt.index]

/-! ## Hash of a Tuple -/

theorem hash_Operand_lt (H : std_hash) (x : Operand) : hash_Operand H x < 2 ^ 64 := by
  simp only [hash_Operand, std_hash.hash_variant, size_t, SIZE_T_RANGE]
  exact Nat.mod_lt _ (by norm_num)

theorem hash_Tuple_loop_eq_foldl (H : std_hash) (t : Tuple) (h : Nat) :
    hash_Tuple_loop H h t =
      t.foldl (fun acc element => (acc * 31 + hash_Operand H element) % 2 ^ 64) h := by
  induction t generalizing h with
  | nil => rfl
  | cons v rest ih =>
    simp only [hash_Tuple_loop, List.foldl_cons, size_t, SIZE_T_RANGE, ih]
    congr 1
    norm_num [Nat.mod_add_mod]

/-- C9: the Tuple hash computed by the loop equals the left fold of
`acc * 31 + hash(element)` from `0` taken modulo `2^64`; the empty Tuple
hashes to `0` and a Tuple of one element to the hash of that element. -/
theorem hash_Tuple_eq_spec (H : std_hash) (t : Tuple) :
    hash_Tuple H t = spec_hash_Tuple H t ∧
    hash_Tuple H [] = 0 ∧
    ∀ x : Operand, hash_Tuple H [x] = hash_Operand H x := by
  refine ⟨hash_Tuple_loop_eq_foldl H t 0, rfl, ?_⟩
  intro x
  have hx := hash_Operand_lt H x
  simp only [hash_Tuple, hash_Tuple_loop, size_t, SIZE_T_RANGE]
  norm_num at hx ⊢
  omega

theorem hash_Tuple_loop_congr (H : std_hash) (s t : Tuple) (h : Nat)
    (hst : Tuple.eq s t = true) : hash_Tuple_loop H h s = hash_Tuple_loop H h t := by
  induction s generalizing t h with
  | nil =>
    cases t with
    | nil => rfl
    | cons b t => simp [Tuple.eq] at hst
  | cons a s ih =>
    cases t with
    | nil => simp [Tuple.eq] at hst
    | cons b t =>
      simp only [Tuple.eq, Bool.and_eq_true] at hst
      simp only [hash_Tuple_loop, hash_Operand_congr H a b hst.1]
      exact ih t _ hst.2

/-- C10: two Tuples of the same length whose elements are pairwise equal under
`Operand::operator==` have the same `std::hash<Tuple>`. -/
theorem hash_Tuple_eq_of_eq (H : std_hash) (s t : Tuple) (h : Tuple.eq s t = true) :
    hash_Tuple H s = hash_Tuple H t :=
  hash_Tuple_loop_congr H s t 0 h

/-- Witness of C10: `[+0.0f, 7]` and `[-0.0f, 7]`. -/
theorem hash_Tuple_eq_of_eq_witness :
    Tuple.eq [Operand.ctor .float float_pos_zero, Operand.ctor .int32_t 7]
      [Operand.ctor .float float_neg_zero, Operand.ctor .int32_t 7] = true ∧
    hash_Tuple reference_hash [Operand.ctor .float float_pos_zero, Operand.ctor .int32_t 7] =
      hash_Tuple reference_hash [Operand.ctor .float float_neg_zero, Operand.ctor .int32_t 7] :=
  ⟨by decide, hash_Tuple_eq_of_eq reference_hash _ _ (by decide)⟩

end dingodb.expr

namespace dingodb.expr

/-! ## Order sensitivity of the Tuple hash -/

theorem hash_Tuple_pair (H : std_hash) (a b : Operand) :
    hash_Tuple H [a, b] = (hash_Operand H a * 31 + hash_Operand H b) % 2 ^ 64 := by
  have ha := hash_Operand_lt H a
  simp only [hash_Tuple, hash_Tuple_loop, size_t, SIZE_T_RANGE]
  norm_num at ha ⊢

/-- C11: with the hash functions of the reference standard library (an
`int32_t` hashes to its value, a variant to its index plus the hash of its
payload), `Operand(1)` and `Operand(2)` hash to `2` and `3`, the Tuple
`[Operand(1), Operand(2)]` hashes to `65` and the swapped Tuple
`[Operand(2), Operand(1)]` to `95`: the two Tuple hashes differ. -/
theorem hash_Tuple_swap_one_two :
    hash_Operand reference_hash (Operand.ctor .int32_t 1) = 2 ∧
    hash_Operand reference_hash (Operand.ctor .int32_t 2) = 3 ∧
    hash_Tuple reference_hash [Operand.ctor .int32_t 1, Operand.ctor .int32_t 2] = 65 ∧
    hash_Tuple reference_hash [Operand.ctor .int32_t 2, Operand.ctor .int32_t 1] = 95 ∧
    hash_Tuple reference_hash [Operand.ctor .int32_t 1, Operand.ctor .int32_t 2] ≠
      hash_Tuple reference_hash [Operand.ctor .int32_t 2, Operand.ctor .int32_t 1] := by
  decide

end dingodb.expr

namespace dingodb.expr

/-! ## What `ToOperand` stores -/

/-- C12: for each of the twelve supported types `T` and every present value
`x` of type `T`, `ToOperand<T>` succeeds with an Operand that is not null,
whose active alternative is the one corresponding to `T`, and which holds
`x`: the scalar itself, the `String` of the raw string, or a handle to an
array with exactly the elements of `x`, in order. -/
theorem ToOperand_holds_value (heap : Heap) (T : Ty) (x : T.type) :
    ∃ op heap1, ToOperand heap T (make_any T x) = .ok (op, heap1) ∧
      op.ne_nullptr = true ∧ op.m_data.alt = T.alt ∧ op.holds heap1 T x := by
  cases T
  case vector e =>
    refine ⟨Operand.ctor (.shared_ptr_vector e) (heap.make_shared e x).1,
      (heap.make_shared e x).2, ?_, ?_, rfl, ?_⟩
    · simp [ToOperand, has_value, make_any, any_cast]
    · simp [Operand.ne_nullptr, variant.holds_alternative, variant.index, variant.alt,
        Alt.index, Operand.ctor, variant.ctor]
    · exact ⟨_, rfl, Heap.deref_make_shared heap e x⟩
  all_goals
    simp [ToOperand, has_value, make_any, any_cast, Operand.ne_nullptr,
      variant.holds_alternative, variant.index, variant.alt, Alt.index, Operand.ctor,
      variant.ctor, Ty.alt, Operand.holds, String.GetPtr]

/-- C13: for each supported type `T`, `ToOperand<T>` of the absent value is an
Operand that compares equal to the null sentinel, and `FromOperand<T>` of an
Operand whose active alternative is null is the absent value (no failure). -/
theorem absent_is_null (heap : Heap) (T : Ty) (op : Operand) :
    (∃ made heap1, ToOperand heap T none = .ok (made, heap1) ∧ made.eq_nullptr = true) ∧
    (op.m_data.alt = .monostate → FromOperand heap T op = .ok none) := by
  constructor
  · exact ⟨Operand.of_nullptr, heap, by simp [ToOperand, has_value], rfl⟩
  · obtain ⟨v⟩ := op
    intro h
    cases v <;> simp [variant.alt] at h
    cases T <;>
      simp [FromOperand, Operand.ne_nullptr, variant.holds_alternative, variant.index,
        variant.alt]

/-- Witness of C13: the raw string type, the default-constructed Operand. -/
theorem absent_is_null_witness :
    (∃ made heap1, ToOperand empty_heap .string none = .ok (made, heap1) ∧
      made.eq_nullptr = true) ∧
    FromOperand empty_heap .string Operand.default = .ok none :=
  ⟨(absent_is_null empty_heap .string Operand.default).1,
   (absent_is_null empty_heap .string Operand.default).2 rfl⟩

/-- C14: `Operand(nullptr)` and `Operand()` both hold the null alternative:
each compares equal to the null sentinel, and they are equal to each other. -/
theorem null_constructors :
    Operand.of_nullptr.m_data = .monostate ∧
    Operand.default.m_data = .monostate ∧
    Operand.of_nullptr.eq_nullptr = true ∧
    Operand.default.eq_nullptr = true ∧
    Operand.of_nullptr.eq Operand.default = true := by
  decide

/-! ## Shared handles -/

theorem Heap.deref_assign (heap heap1 : Heap) (e : Elem) (p : shared_ptr) (xs : List e.type)
    (h : heap.assign e p xs = some heap1) : heap1.deref e p = some xs := by
  obtain ⟨a⟩ := p
  cases a with
  | zero => simp [Heap.assign, Heap.deref] at h
  | succ a =>
    simp only [Heap.assign, Heap.deref, List.get?_eq_getElem?] at h
    cases hg : heap.objects[a]? with
    | none => simp [hg] at h
    | some obj =>
      simp only [hg] at h
      by_cases he : obj.E = e
      · simp only [he, dite_true, Option.some.injEq] at h
        subst h
        have hlt : a < heap.objects.length := (List.getElem?_eq_some_iff.mp hg).1
        simp [Heap.deref, List.get?_eq_getElem?, hlt]
      · simp [he] at h

/-- C17: for every shared array handle `h`, `GetValue` on `Operand(h)` and on
a copy of it both return `h` itself, the two Operands compare equal, and an
assignment to the array made through the handle got from one of them is read
back through the handle got from the other. -/
theorem shared_handle_aliasing (e : Elem) (h : shared_ptr) :
    (Operand.ctor (.shared_ptr_vector e) h).GetValue (.shared_ptr_vector e) = .ok h ∧
    (Operand.ctor (.shared_ptr_vector e) h).copy.GetValue (.shared_ptr_vector e) = .ok h ∧
    (Operand.ctor (.shared_ptr_vector e) h).eq (Operand.ctor (.shared_ptr_vector e) h).copy =
      true ∧
    ∀ (heap heap1 : Heap) (xs : List e.type) (p q : shared_ptr),
      (Operand.ctor (.shared_ptr_vector e) h).GetValue (.shared_ptr_vector e) = .ok p →
      (Operand.ctor (.shared_ptr_vector e) h).copy.GetValue (.shared_ptr_vector e) = .ok q →
      heap.assign e p xs = some heap1 → heap1.deref e q = some xs := by
  have hget : (Operand.ctor (.shared_ptr_vector e) h).GetValue (.shared_ptr_vector e) =
      .ok h := by
    simp [Operand.ctor, variant.ctor, Operand.GetValue, variant.get]
  refine ⟨hget, hget, ?_, ?_⟩
  · simp [Operand.copy, Operand.ctor, variant.ctor, Operand.eq, variant.eq, shared_ptr.eq]
  · intro heap heap1 xs p q hp hq hassign
    have hq1 : (Operand.ctor (.shared_ptr_vector e) h).GetValue (.shared_ptr_vector e) =
        .ok q := hq
    rw [hget] at hp hq1
    cases hp
    cases hq1
    exact Heap.deref_assign heap heap1 e _ xs hassign

/-- Witness of C17: the first of two `int32_t` arrays `[1, 2, 3]` is assigned
`[4, 5]` through one Operand and read through its copy. -/
theorem shared_handle_aliasing_witness :
    first_array.GetValue (.shared_ptr_vector .int32_t) = .ok ⟨1⟩ ∧
    first_array.copy.GetValue (.shared_ptr_vector .int32_t) = .ok ⟨1⟩ ∧
    two_arrays_heap.assign .int32_t ⟨1⟩ [4, 5] = some assigned_heap ∧
    assigned_heap.deref .int32_t ⟨1⟩ = some [4, 5] :=
  ⟨(shared_handle_aliasing .int32_t ⟨1⟩).1, (shared_handle_aliasing .int32_t ⟨1⟩).2.1, rfl,
   (shared_handle_aliasing .int32_t ⟨1⟩).2.2.2 two_arrays_heap assigned_heap [4, 5] ⟨1⟩ ⟨1⟩
     rfl rfl rfl⟩

/-! ## Inequality -/

/-- C18: for every pair of Operands, `a != b` is true exactly when `a == b` is
false, NaN payloads and array handles included. -/
theorem Operand_ne_iff_not_eq (a b : Operand) :
    (a.ne b = true ↔ a.eq b = false) ∧ a.ne b = !a.eq b := by
  have key : a.ne b = !a.eq b := by
    obtain ⟨va⟩ := a
    obtain ⟨vb⟩ := b
    cases va <;> cases vb <;>
      simp [Operand.ne, Operand.eq, variant.ne, variant.eq, variant.index, variant.alt,
        Alt.index, float_ne_eq_not_eq, double_ne_eq_not_eq, String.ne, String.eq,
        shared_ptr.ne, shared_ptr.eq, bne]
  refine ⟨?_, key⟩
  rw [key]
  cases a.eq b <;> simp

end dingodb.expr

namespace dingodb.expr

/-! ## Composition of the Tuple hash -/

theorem hash_Tuple_loop_append (H : std_hash) (s t : Tuple) (h : Nat) :
    hash_Tuple_loop H h (s ++ t) = hash_Tuple_loop H (hash_Tuple_loop H h s) t := by
  induction s generalizing h with
  | nil => rfl
  | cons v rest ih =>
    show hash_Tuple_loop H _ (rest ++ t) = _
    exact ih _

theorem hash_Tuple_loop_lt (H : std_hash) (t : Tuple) (h : Nat) (hh : h < 2 ^ 64) :
    hash_Tuple_loop H h t < 2 ^ 64 := by
  induction t generalizing h with
  | nil => exact hh
  | cons v rest ih =>
    simp only [hash_Tuple_loop]
    apply ih
    simp only [size_t, SIZE_T_RANGE]
    exact Nat.mod_lt _ (by norm_num)

theorem hash_Tuple_loop_shift (H : std_hash) (t : Tuple) (h : Nat) :
    hash_Tuple_loop H h t ≡ h * 31 ^ t.length + hash_Tuple_loop H 0 t [MOD 2 ^ 64] := by
  induction t generalizing h with
  | nil => simp [hash_Tuple_loop, Nat.ModEq]
  | cons v rest ih =>
    simp only [hash_Tuple_loop, List.length_cons]
    have h2 : size_t (size_t (h * 31) + hash_Operand H v) ≡ h * 31 + hash_Operand H v
        [MOD 2 ^ 64] := by
      simp only [size_t, SIZE_T_RANGE, Nat.ModEq]
      norm_num [Nat.mod_add_mod]
    have h0 : size_t (size_t (0 * 31) + hash_Operand H v) ≡ hash_Operand H v [MOD 2 ^ 64] := by
      simp only [size_t, SIZE_T_RANGE, Nat.ModEq]
      norm_num
    calc hash_Tuple_loop H (size_t (size_t (h * 31) + hash_Operand H v)) rest
        ≡ size_t (size_t (h * 31) + hash_Operand H v) * 31 ^ rest.length +
            hash_Tuple_loop H 0 rest [MOD 2 ^ 64] := ih _
      _ ≡ (h * 31 + hash_Operand H v) * 31 ^ rest.length + hash_Tuple_loop H 0 rest
            [MOD 2 ^ 64] := (h2.mul_right _).add_right _
      _ = h * 31 ^ (rest.length + 1) +
            (hash_Operand H v * 31 ^ rest.length + hash_Tuple_loop H 0 rest) := by ring
      _ ≡ h * 31 ^ (rest.length + 1) +
            (size_t (size_t (0 * 31) + hash_Operand H v) * 31 ^ rest.length +
              hash_Tuple_loop H 0 rest) [MOD 2 ^ 64] :=
          (((h0.mul_right _).add_right _).symm).add_left _
      _ ≡ h * 31 ^ (rest.length + 1) +
            hash_Tuple_loop H (size_t (size_t (0 * 31) + hash_Operand H v)) rest
            [MOD 2 ^ 64] := ((ih _).symm).add_left _

/-- C20: the hash of a concatenation `s ++ t` is the hash of `s` times
`31 ^ length t` plus the hash of `t`, modulo `2^64`; appending one Operand
`x` gives the hash of `s` times `31` plus the hash of `x`, modulo `2^64`. -/
theorem hash_Tuple_append (H : std_hash) (s t : Tuple) :
    hash_Tuple H (s ++ t) = (hash_Tuple H s * 31 ^ t.length + hash_Tuple H t) % 2 ^ 64 ∧
    ∀ x : Operand,
      hash_Tuple H (s ++ [x]) = (hash_Tuple H s * 31 + hash_Operand H x) % 2 ^ 64 := by
  have key : ∀ u : Tuple,
      hash_Tuple H (s ++ u) = (hash_Tuple H s * 31 ^ u.length + hash_Tuple H u) % 2 ^ 64 := by
    intro u
    have hlt : hash_Tuple_loop H 0 (s ++ u) < 2 ^ 64 :=
      hash_Tuple_loop_lt H _ 0 (by norm_num)
    have hmod := hash_Tuple_loop_shift H u (hash_Tuple_loop H 0 s)
    rw [← hash_Tuple_loop_append] at hmod
    unfold Nat.ModEq at hmod
    rw [Nat.mod_eq_of_lt hlt] at hmod
    exact hmod
  refine ⟨key t, ?_⟩
  intro x
  have hx : hash_Tuple H [x] = hash_Operand H x := by
    have hlt := hash_Operand_lt H x
    simp only [hash_Tuple, hash_Tuple_loop, size_t, SIZE_T_RANGE]
    norm_num at hlt ⊢
    omega
  rw [key [x], hx]
  simp

/-! ## Exact condition for order sensitivity -/

theorem swap_congruence (ha hb : ℕ) :
    ((ha * 31 + hb) % 2 ^ 64 = (hb * 31 + ha) % 2 ^ 64 ↔
      (30 * ((ha : ℤ) - (hb : ℤ))) % 2 ^ 64 = 0) ∧
    ((30 * ((ha : ℤ) - (hb : ℤ))) % 2 ^ 64 = 0 ↔ ha % 2 ^ 63 = hb % 2 ^ 63) := by
  constructor
  · change (ha * 31 + hb) ≡ (hb * 31 + ha) [MOD 2 ^ 64] ↔ _
    rw [Nat.modEq_iff_dvd, ← Int.dvd_iff_emod_eq_zero]
    have e : (((hb * 31 + ha : ℕ) : ℤ) - ((ha * 31 + hb : ℕ) : ℤ)) =
        -(30 * ((ha : ℤ) - (hb : ℤ))) := by
      push_cast
      ring
    rw [e, dvd_neg]
    norm_num
  · change _ ↔ ha ≡ hb [MOD 2 ^ 63]
    rw [Nat.modEq_iff_dvd, ← Int.dvd_iff_emod_eq_zero, dvd_sub_comm]
    have e30 : (30 : ℤ) * ((ha : ℤ) - (hb : ℤ)) = 2 * (15 * ((ha : ℤ) - (hb : ℤ))) := by ring
    have e64 : (2 : ℤ) ^ 64 = 2 * 2 ^ 63 := by norm_num
    have hco : IsCoprime ((2 : ℤ) ^ 63) 15 := by
      have h2 : IsCoprime (2 : ℤ) 15 := by
        rw [Int.isCoprime_iff_gcd_eq_one]
        decide
      exact h2.pow_left
    rw [e30, e64, mul_dvd_mul_iff_left (by norm_num : (2 : ℤ) ≠ 0)]
    push_cast
    constructor
    · exact fun h => hco.dvd_of_dvd_mul_left h
    · exact fun h => Dvd.dvd.mul_left h 15

/-- C19: for every two Operands `a` and `b`, the Tuples `[a, b]` and `[b, a]`
have the same hash exactly when `30 * (hash a - hash b)` is `0` modulo `2^64`,
which is exactly when the two element hashes are congruent modulo `2^63`. So
elements with different hashes can give the same Tuple hash in both orders:
with the reference library, the `int64_t` Operands `0` and `-2^63` do. -/
theorem hash_Tuple_swap_iff (H : std_hash) (a b : Operand) :
    (hash_Tuple H [a, b] = hash_Tuple H [b, a] ↔
      (30 * ((hash_Operand H a : ℤ) - (hash_Operand H b : ℤ))) % 2 ^ 64 = 0) ∧
    ((30 * ((hash_Operand H a : ℤ) - (hash_Operand H b : ℤ))) % 2 ^ 64 = 0 ↔
      hash_Operand H a % 2 ^ 63 = hash_Operand H b % 2 ^ 63) ∧
    (hash_Operand reference_hash (Operand.ctor .int64_t 0) ≠
        hash_Operand reference_hash (Operand.ctor .int64_t INT64_MIN) ∧
      hash_Tuple reference_hash [Operand.ctor .int64_t 0, Operand.ctor .int64_t INT64_MIN] =
        hash_Tuple reference_hash
          [Operand.ctor .int64_t INT64_MIN, Operand.ctor .int64_t 0]) := by
  refine ⟨?_, (swap_congruence _ _).2, by decide⟩
  rw [hash_Tuple_pair, hash_Tuple_pair]
  exact (swap_congruence _ _).1

end dingodb.expr

namespace dingodb.expr

/-! ## `ToOperand` after `FromOperand` -/

theorem Heap.deref_bound (heap : Heap) (e : Elem) (p : shared_ptr) (xs : List e.type)
    (h : heap.deref e p = some xs) : p.get ≠ heap.objects.length + 1 := by
  obtain ⟨a⟩ := p
  cases a with
  | zero => simp
  | succ a =>
    simp only [Heap.deref, List.get?_eq_getElem?] at h
    cases hg : heap.objects[a]? with
    | none => simp [hg] at h
    | some obj =>
      have hlt : a < heap.objects.length := (List.getElem?_eq_some_iff.mp hg).1
      simp only
      omega

/-- C15 as stated fails: the Operand holding the handle of the `int32_t` array
`[1, 2, 3]` is of the alternative corresponding to `std::vector<int32_t>`,
and `ToOperand` of its `FromOperand` is an Operand with another handle, which
`operator==` says is not equal to it. -/
theorem ToOperand_of_FromOperand_array_not_equal :
    first_array.m_data.alt = (Ty.vector .int32_t).alt ∧
    FromOperand one_array_heap (.vector .int32_t) first_array =
      .ok (make_any (.vector .int32_t) [1, 2, 3]) ∧
    ToOperand_of_FromOperand one_array_heap (.vector .int32_t) first_array =
      .ok (second_array, two_arrays_heap) ∧
    second_array.eq first_array = false :=
  ⟨rfl, rfl, rfl, rfl⟩

/-- C15, amended: for an Operand `op` that is null, or whose active
alternative is the scalar or string alternative corresponding to `T`,
`ToOperand<T>(FromOperand<T>(op))` is an Operand with the alternative and
payload of `op`, and it compares equal to `op` unless that payload is a NaN.
For an Operand holding a handle to an array of the alternative corresponding
to `T`, the result holds another handle, to an array with the same elements,
and does not compare equal to `op`. -/
theorem ToOperand_of_FromOperand_spec (heap : Heap) (T : Ty) (op : Operand) :
    (op.m_data.alt = .monostate →
      ToOperand_of_FromOperand heap T op = .ok (Operand.of_nullptr, heap) ∧
      Operand.of_nullptr.eq op = true) ∧
    ((∀ e, T ≠ .vector e) → op.m_data.alt = T.alt →
      ToOperand_of_FromOperand heap T op = .ok (op, heap) ∧
      (op.m_data.is_NaN = false → op.eq op = true)) ∧
    (∀ e p xs, T = .vector e → op.m_data = .shared_ptr_vector e p →
      heap.deref e p = some xs →
      ∃ q heap1, ToOperand_of_FromOperand heap T op =
          .ok (Operand.ctor (.shared_ptr_vector e) q, heap1) ∧
        heap1.deref e q = some xs ∧ q.get ≠ p.get ∧
        (Operand.ctor (.shared_ptr_vector e) q).eq op = false) := by
  obtain ⟨v⟩ := op
  refine ⟨?_, ?_, ?_⟩
  · intro h
    cases v <;> simp [variant.alt] at h
    cases T <;>
      simp [ToOperand_of_FromOperand, FromOperand, Operand.ne_nullptr,
        variant.holds_alternative, variant.index, variant.alt, ToOperand, has_value,
        Operand.of_nullptr, Operand.eq, variant.eq]
  · intro hT h
    cases T <;> cases v <;> simp [variant.alt, Ty.alt] at h hT <;>
      simp [ToOperand_of_FromOperand, FromOperand, Operand.ne_nullptr,
        variant.holds_alternative, variant.index, variant.alt, Alt.index, Operand.GetValue,
        variant.get, make_any, ToOperand, has_value, any_cast, Operand.ctor, variant.ctor,
        String.GetPtr, variant.is_NaN, Operand.eq, variant.eq, String.eq]
    · exact float_eq_self _
    · exact double_eq_self _
  · intro e p xs hT hv hd
    simp only at hv
    subst hT hv
    refine ⟨(heap.make_shared e xs).1, (heap.make_shared e xs).2, ?_,
      Heap.deref_make_shared heap e xs, ?_, ?_⟩
    · simp [ToOperand_of_FromOperand, FromOperand, Operand.ne_nullptr,
        variant.holds_alternative, variant.index, variant.alt, Alt.index, Operand.GetValue,
        variant.get, hd, make_any, ToOperand, has_value, any_cast]
    · exact fun h => Heap.deref_bound heap e p xs hd h.symm
    · have hne := Heap.deref_bound heap e p xs hd
      simp [Operand.ctor, variant.ctor, Operand.eq, variant.eq, shared_ptr.eq,
        Heap.make_shared]
      omega

/-- Witness of C15, amended: the null Operand and `int32_t` 5 come back equal,
the first array of the free store comes back under the handle of a second
array. -/
theorem ToOperand_of_FromOperand_spec_witness :
    (ToOperand_of_FromOperand one_array_heap .int32_t Operand.default =
        .ok (Operand.of_nullptr, one_array_heap) ∧
      Operand.of_nullptr.eq Operand.default = true) ∧
    (ToOperand_of_FromOperand one_array_heap .int32_t (Operand.ctor .int32_t 5) =
        .ok (Operand.ctor .int32_t 5, one_array_heap) ∧
      (Operand.ctor .int32_t 5).eq (Operand.ctor .int32_t 5) = true) ∧
    ∃ q heap1, ToOperand_of_FromOperand one_array_heap (.vector .int32_t) first_array =
        .ok (Operand.ctor (.shared_ptr_vector .int32_t) q, heap1) ∧
      heap1.deref .int32_t q = some [1, 2, 3] ∧ q.get ≠ 1 ∧
      (Operand.ctor (.shared_ptr_vector .int32_t) q).eq first_array = false :=
  ⟨(ToOperand_of_FromOperand_spec one_array_heap .int32_t Operand.default).1 rfl,
   ⟨((ToOperand_of_FromOperand_spec one_array_heap .int32_t (Operand.ctor .int32_t 5)).2.1
        (fun _ h => Ty.noConfusion h) rfl).1,
    ((ToOperand_of_FromOperand_spec one_array_heap .int32_t (Operand.ctor .int32_t 5)).2.1
        (fun _ h => Ty.noConfusion h) rfl).2 rfl⟩,
   (ToOperand_of_FromOperand_spec one_array_heap (.vector .int32_t) first_array).2.2
      .int32_t ⟨1⟩ [1, 2, 3] rfl rfl rfl⟩

/-! ## What the hash of an Operand depends on -/

/-- C16 as stated fails: the two `int32_t` arrays `[1, 2, 3]` of the free store
are element-wise equal, the Operands holding their handles are of the same
alternative, and with the reference library the two Operands hash to `8` and
to `9`. -/
theorem equal_arrays_hash_differently :
    first_array.m_data.alt = second_array.m_data.alt ∧
    two_arrays_heap.deref .int32_t ⟨1⟩ = some [1, 2, 3] ∧
    two_arrays_heap.deref .int32_t ⟨2⟩ = some [1, 2, 3] ∧
    hash_Operand reference_hash first_array = 8 ∧
    hash_Operand reference_hash second_array = 9 :=
  ⟨rfl, rfl, rfl, by decide, by decide⟩

theorem Operand_eq_of_same_payload (a b : Operand) (halt : a.m_data.alt = b.m_data.alt)
    (hp : variant.same_payload a.m_data b.m_data = true) : a.eq b = true := by
  obtain ⟨va⟩ := a
  obtain ⟨vb⟩ := b
  cases va <;> cases vb <;> simp [variant.alt] at halt <;>
    simp [variant.same_payload, String.eq] at hp <;>
    simp [Operand.eq, variant.eq, variant.index, variant.alt, Alt.index, shared_ptr.eq,
      String.eq, halt, hp]

/-- C16, amended: the hash of an Operand is a function of the active
alternative and of the payload, the payload of an array alternative being the
shared handle and not the elements: two Operands with the same active
alternative whose payloads compare equal under the `==` of the payload type
(for an array alternative, the same stored pointer) have the same hash. -/
theorem hash_Operand_of_same_payload (H : std_hash) (a b : Operand)
    (halt : a.m_data.alt = b.m_data.alt)
    (hp : variant.same_payload a.m_data b.m_data = true) :
    hash_Operand H a = hash_Operand H b :=
  hash_Operand_congr H a b (Operand_eq_of_same_payload a b halt hp)

/-- Witness of C16, amended: an array Operand and its copy. -/
theorem hash_Operand_of_same_payload_witness :
    first_array.m_data.alt = first_array.copy.m_data.alt ∧
    variant.same_payload first_array.m_data first_array.copy.m_data = true ∧
    hash_Operand reference_hash first_array = hash_Operand reference_hash first_array.copy :=
  ⟨rfl, by decide, hash_Operand_of_same_payload reference_hash _ _ rfl (by decide)⟩

end dingodb.expr
